import Mathlib

/-!
Shallow embedding of `waffle_hub/utils/callback.py`.

The module defines a progress-tracking handle `ThreadProgressCallback`
with subclasses `TrainCallback`, `InferenceCallback` and `ExportCallback`.
Numeric values are modelled exactly: Python's float division
`step / total_steps` is modelled by division in `ℚ`; a Python
`ZeroDivisionError` is modelled by an explicit outcome constructor,
and the state returned alongside it carries exactly the field
mutations the Python code performs before the raising division.
`time.time()` is modelled by passing the current time as a `ℚ`
parameter; the thread object is modelled as `Option Unit` (attached or
not), since the code never reads anything from it beyond `is not None`.
The caller-supplied `get_metric_func` of `TrainCallback` is modelled by
passing the metric list it would return as a parameter to
`TrainCallback.get_progress`.
-/

/-- State of `ThreadProgressCallback` (fields set in `__init__`). -/
structure ThreadProgressCallback where
  total_steps : ℤ
  thread : Option Unit
  finished : Bool
  progress : ℚ
  start_time : ℚ
deriving DecidableEq

/-- `ThreadProgressCallback.__init__(total_steps)` at current time `now`. -/
def ThreadProgressCallback.init (total_steps : ℤ) (now : ℚ) : ThreadProgressCallback :=
  { total_steps := total_steps
    thread := none
    finished := false
    progress := 0
    start_time := now }

/-- How a call to `update` returns: normally, with a `warnings.warn`,
or by raising `ZeroDivisionError`. -/
inductive UpdateOutcome where
  | normal
  | warned
  | zeroDivisionError
deriving DecidableEq

/-- `ThreadProgressCallback.update(step)`.  Python executes
`self._finished = True` before the division in the `step >= total_steps`
branch, so when the division raises, `finished` has already been set. -/
def ThreadProgressCallback.update (s : ThreadProgressCallback) (step : ℤ) :
    ThreadProgressCallback × UpdateOutcome :=
  if s.finished then
    (s, .warned)
  else if s.total_steps ≤ step then
    if s.total_steps = 0 then
      ({ s with finished := true }, .zeroDivisionError)
    else
      ({ s with finished := true,
                progress := (step : ℚ) / (s.total_steps : ℚ) }, .normal)
  else
    if s.total_steps = 0 then
      (s, .zeroDivisionError)
    else
      ({ s with progress := (step : ℚ) / (s.total_steps : ℚ) }, .normal)

/-- `ThreadProgressCallback.get_progress()` (base class): returns the
stored progress. -/
def ThreadProgressCallback.get_progress (s : ThreadProgressCallback) : ℚ :=
  s.progress

/-- `ThreadProgressCallback.is_finished()`. -/
def ThreadProgressCallback.is_finished (s : ThreadProgressCallback) : Bool :=
  s.finished

/-- Return value of `get_remaining_time`: `float("inf")` or a finite
number of seconds. -/
inductive RemainingTime where
  | infinity
  | finite (seconds : ℚ)
deriving DecidableEq

/-- `ThreadProgressCallback.get_remaining_time()` at current time `now`. -/
def ThreadProgressCallback.get_remaining_time (s : ThreadProgressCallback)
    (now : ℚ) : RemainingTime :=
  let elapsed := now - s.start_time
  if s.progress = 0 then .infinity
  else .finite (elapsed / s.progress - elapsed)

/-- `ThreadProgressCallback.force_finish()`. -/
def ThreadProgressCallback.force_finish (s : ThreadProgressCallback) :
    ThreadProgressCallback :=
  { s with finished := true }

/-- `ThreadProgressCallback.register_thread(thread)`. -/
def ThreadProgressCallback.register_thread (s : ThreadProgressCallback) :
    ThreadProgressCallback :=
  { s with thread := some () }

/-- `ThreadProgressCallback.start()`: calls `self._thread.start()` when a
thread is attached; mutates no field of the handle. -/
def ThreadProgressCallback.start (s : ThreadProgressCallback) :
    ThreadProgressCallback :=
  s

/-- `ThreadProgressCallback.join()`: joins the attached thread, if any;
mutates no field of the handle. -/
def ThreadProgressCallback.join (s : ThreadProgressCallback) :
    ThreadProgressCallback :=
  s

/-- State of `TrainCallback` (the `get_metric_func` member is modelled as
a call-time argument to `get_progress`). -/
structure TrainCallback extends ThreadProgressCallback where
  best_ckpt_file : Option String
  last_ckpt_file : Option String
  result_dir : Option String
  metric_file : Option String
deriving DecidableEq

/-- `TrainCallback.__init__(total_steps, get_metric_func)`. -/
def TrainCallback.init (total_steps : ℤ) (now : ℚ) : TrainCallback :=
  { toThreadProgressCallback := ThreadProgressCallback.init total_steps now
    best_ckpt_file := none
    last_ckpt_file := none
    result_dir := none
    metric_file := none }

/-- How `TrainCallback.get_progress` returns: with a value, or by raising
`ZeroDivisionError` (possibly out of the nested `update` call). -/
inductive TrainProgressOutcome where
  | returned (value : ℚ)
  | zeroDivisionError
deriving DecidableEq

/-- `TrainCallback.get_progress()`, with `metrics` the list returned by
`self._get_metric_func()`.  The code returns `0` on an empty list;
otherwise it calls `self.update(len(metrics))` and then assigns
`self._progress = len(metrics) / self._total_steps` unconditionally. -/
def TrainCallback.get_progress (s : TrainCallback) (metrics : List α) :
    TrainCallback × TrainProgressOutcome :=
  if metrics.length = 0 then
    (s, .returned 0)
  else
    let r := s.toThreadProgressCallback.update (metrics.length : ℤ)
    let s₁ : TrainCallback := { s with toThreadProgressCallback := r.1 }
    match r.2 with
    | .zeroDivisionError => (s₁, .zeroDivisionError)
    | _ =>
      if s₁.total_steps = 0 then
        (s₁, .zeroDivisionError)
      else
        let p : ℚ := (metrics.length : ℚ) / (s₁.total_steps : ℚ)
        ({ s₁ with toThreadProgressCallback := { r.1 with progress := p } },
          .returned p)

/-- Setter `TrainCallback.best_ckpt_file`. -/
def TrainCallback.set_best_ckpt_file (s : TrainCallback) (path : String) :
    TrainCallback :=
  { s with best_ckpt_file := some path }

/-- Setter `TrainCallback.last_ckpt_file`. -/
def TrainCallback.set_last_ckpt_file (s : TrainCallback) (path : String) :
    TrainCallback :=
  { s with last_ckpt_file := some path }

/-- Setter `TrainCallback.result_dir`. -/
def TrainCallback.set_result_dir (s : TrainCallback) (path : String) :
    TrainCallback :=
  { s with result_dir := some path }

/-- Setter `TrainCallback.metric_file`. -/
def TrainCallback.set_metric_file (s : TrainCallback) (path : String) :
    TrainCallback :=
  { s with metric_file := some path }

/-- State of `InferenceCallback`. -/
structure InferenceCallback extends ThreadProgressCallback where
  inference_dir : Option String
  draw_dir : Option String
deriving DecidableEq

/-- `InferenceCallback.__init__(total_steps)`. -/
def InferenceCallback.init (total_steps : ℤ) (now : ℚ) : InferenceCallback :=
  { toThreadProgressCallback := ThreadProgressCallback.init total_steps now
    inference_dir := none
    draw_dir := none }

/-- Setter `InferenceCallback.inference_dir`. -/
def InferenceCallback.set_inference_dir (s : InferenceCallback) (path : String) :
    InferenceCallback :=
  { s with inference_dir := some path }

/-- Setter `InferenceCallback.draw_dir`. -/
def InferenceCallback.set_draw_dir (s : InferenceCallback) (path : String) :
    InferenceCallback :=
  { s with draw_dir := some path }

/-- State of `ExportCallback`. -/
structure ExportCallback extends ThreadProgressCallback where
  export_file : Option String
deriving DecidableEq

/-- `ExportCallback.__init__(total_steps)`. -/
def ExportCallback.init (total_steps : ℤ) (now : ℚ) : ExportCallback :=
  { toThreadProgressCallback := ThreadProgressCallback.init total_steps now
    export_file := none }

/-- Setter `ExportCallback.export_file`. -/
def ExportCallback.set_export_file (s : ExportCallback) (path : String) :
    ExportCallback :=
  { s with export_file := some path }

/-- The public operations callable on a plain `ThreadProgressCallback`. -/
inductive BaseOp where
  | update (step : ℤ)
  | get_progress
  | is_finished
  | get_remaining_time (now : ℚ)
  | force_finish
  | register_thread
  | start
  | join

/-- State transition of one operation on a `ThreadProgressCallback`
(read-only methods leave the state unchanged; a raising `update` leaves
the mutations performed before the raise). -/
def ThreadProgressCallback.exec (s : ThreadProgressCallback) :
    BaseOp → ThreadProgressCallback
  | .update step => (s.update step).1
  | .get_progress => s
  | .is_finished => s
  | .get_remaining_time _ => s
  | .force_finish => s.force_finish
  | .register_thread => s.register_thread
  | .start => s.start
  | .join => s.join

/-- The public operations callable on a `TrainCallback`: the inherited
ones (with `get_progress` overridden) plus the path setters. -/
inductive TrainOp (α : Type) where
  | update (step : ℤ)
  | get_progress (metrics : List α)
  | is_finished
  | get_remaining_time (now : ℚ)
  | force_finish
  | register_thread
  | start
  | join
  | get_metrics
  | set_best_ckpt_file (path : String)
  | set_last_ckpt_file (path : String)
  | set_result_dir (path : String)
  | set_metric_file (path : String)

/-- State transition of one operation on a `TrainCallback`. -/
def TrainCallback.exec (s : TrainCallback) : TrainOp α → TrainCallback
  | .update step =>
      { s with toThreadProgressCallback := (s.toThreadProgressCallback.update step).1 }
  | .get_progress metrics => (s.get_progress metrics).1
  | .is_finished => s
  | .get_remaining_time _ => s
  | .force_finish =>
      { s with toThreadProgressCallback := s.toThreadProgressCallback.force_finish }
  | .register_thread =>
      { s with toThreadProgressCallback := s.toThreadProgressCallback.register_thread }
  | .start => s
  | .join => s
  | .get_metrics => s
  | .set_best_ckpt_file p => s.set_best_ckpt_file p
  | .set_last_ckpt_file p => s.set_last_ckpt_file p
  | .set_result_dir p => s.set_result_dir p
  | .set_metric_file p => s.set_metric_file p

/-- The public operations callable on an `InferenceCallback`: the
inherited ones plus the directory setters. -/
inductive InferenceOp where
  | update (step : ℤ)
  | get_progress
  | is_finished
  | get_remaining_time (now : ℚ)
  | force_finish
  | register_thread
  | start
  | join
  | set_inference_dir (path : String)
  | set_draw_dir (path : String)

/-- State transition of one operation on an `InferenceCallback`. -/
def InferenceCallback.exec (s : InferenceCallback) : InferenceOp → InferenceCallback
  | .update step =>
      { s with toThreadProgressCallback := (s.toThreadProgressCallback.update step).1 }
  | .get_progress => s
  | .is_finished => s
  | .get_remaining_time _ => s
  | .force_finish =>
      { s with toThreadProgressCallback := s.toThreadProgressCallback.force_finish }
  | .register_thread =>
      { s with toThreadProgressCallback := s.toThreadProgressCallback.register_thread }
  | .start => s
  | .join => s
  | .set_inference_dir p => s.set_inference_dir p
  | .set_draw_dir p => s.set_draw_dir p

/-- The public operations callable on an `ExportCallback`: the inherited
ones plus the export-file setter. -/
inductive ExportOp where
  | update (step : ℤ)
  | get_progress
  | is_finished
  | get_remaining_time (now : ℚ)
  | force_finish
  | register_thread
  | start
  | join
  | set_export_file (path : String)

/-- State transition of one operation on an `ExportCallback`. -/
def ExportCallback.exec (s : ExportCallback) : ExportOp → ExportCallback
  | .update step =>
      { s with toThreadProgressCallback := (s.toThreadProgressCallback.update step).1 }
  | .get_progress => s
  | .is_finished => s
  | .get_remaining_time _ => s
  | .force_finish =>
      { s with toThreadProgressCallback := s.toThreadProgressCallback.force_finish }
  | .register_thread =>
      { s with toThreadProgressCallback := s.toThreadProgressCallback.register_thread }
  | .start => s
  | .join => s
  | .set_export_file p => s.set_export_file p

/-! ### Helper lemmas -/

/-- `update` never changes `total_steps`. -/
theorem ThreadProgressCallback.update_total_steps (s : ThreadProgressCallback)
    (step : ℤ) : (s.update step).1.total_steps = s.total_steps := by
  unfold ThreadProgressCallback.update
  split_ifs <;> rfl

/-- On a finished handle, `update` warns and changes nothing. -/
theorem ThreadProgressCallback.update_of_finished (s : ThreadProgressCallback)
    (step : ℤ) (h : s.finished = true) :
    s.update step = (s, UpdateOutcome.warned) := by
  unfold ThreadProgressCallback.update
  simp [h]

/-- `update` never resets `finished` to `false`. -/
theorem ThreadProgressCallback.update_finished_mono (s : ThreadProgressCallback)
    (step : ℤ) (h : s.finished = true) : (s.update step).1.finished = true := by
  rw [s.update_of_finished step h]
  exact h

/-- The `finished` flag after `TrainCallback.get_progress` comes from the
nested `update` call (or is untouched on an empty metric list). -/
theorem TrainCallback.get_progress_finished (s : TrainCallback) (metrics : List α) :
    (s.get_progress metrics).1.finished =
      if metrics.length = 0 then s.finished
      else (s.toThreadProgressCallback.update (metrics.length : ℤ)).1.finished := by
  unfold TrainCallback.get_progress
  split_ifs with h
  · rfl
  · dsimp only
    split
    · rfl
    · split_ifs <;> rfl

/-- `TrainCallback.get_progress` never changes `total_steps`. -/
theorem TrainCallback.get_progress_total_steps (s : TrainCallback) (metrics : List α) :
    (s.get_progress metrics).1.total_steps = s.total_steps := by
  unfold TrainCallback.get_progress
  split_ifs with h
  · rfl
  · dsimp only
    split
    · exact s.toThreadProgressCallback.update_total_steps _
    · split_ifs
      · exact s.toThreadProgressCallback.update_total_steps _
      · exact s.toThreadProgressCallback.update_total_steps _

/-- A property preserved by every single operation is preserved by every
sequence of operations. -/
theorem foldl_preserves {σ τ : Type} {P : σ → Prop} (f : σ → τ → σ)
    (hf : ∀ s o, P s → P (f s o)) :
    ∀ (l : List τ) (s : σ), P s → P (l.foldl f s)
  | [], _, h => h
  | o :: l, s, h => foldl_preserves f hf l (f s o) (hf s o h)

/-- `update` with a nonzero `total_steps` never raises. -/
theorem ThreadProgressCallback.update_ne_zdiv (s : ThreadProgressCallback)
    (step : ℤ) (ht : s.total_steps ≠ 0) :
    (s.update step).2 ≠ UpdateOutcome.zeroDivisionError := by
  unfold ThreadProgressCallback.update
  split_ifs <;> simp_all

/-! ### Claim theorems -/

/-- Claim C3: a handle constructed with `total_steps = 0` raises
`ZeroDivisionError` on `update(step)` for every `step ≥ 0`: the division
`step / total_steps` is reached with divisor 0 and the call fails rather
than returning normally. -/
theorem update_zero_total_raises (t0 : ℚ) (step : ℤ) (h : 0 ≤ step) :
    ((ThreadProgressCallback.init 0 t0).update step).2 =
      UpdateOutcome.zeroDivisionError := by
  simp [ThreadProgressCallback.init, ThreadProgressCallback.update, h]

/-- Witness for C3 at `total_steps = 0`, `step = 5`. -/
theorem update_zero_total_raises_witness :
    ((ThreadProgressCallback.init 0 0).update 5).2 =
      UpdateOutcome.zeroDivisionError :=
  update_zero_total_raises 0 5 (by norm_num)

/-- Claim C4: on a finished handle, `update(step)` emits a warning, keeps
`finished` true, and leaves the stored progress unchanged, for every
`step`. -/
theorem update_after_finished_warns (s : ThreadProgressCallback) (step : ℤ)
    (h : s.finished = true) :
    (s.update step).2 = UpdateOutcome.warned ∧
    (s.update step).1.finished = true ∧
    (s.update step).1.progress = s.progress := by
  rw [s.update_of_finished step h]
  exact ⟨rfl, h, rfl⟩

/-- Witness for C4 on a force-finished handle. -/
theorem update_after_finished_warns_witness :
    (((ThreadProgressCallback.init 5 0).force_finish.update 2).2 =
      UpdateOutcome.warned) ∧
    ((ThreadProgressCallback.init 5 0).force_finish.update 2).1.finished = true ∧
    ((ThreadProgressCallback.init 5 0).force_finish.update 2).1.progress =
      (ThreadProgressCallback.init 5 0).force_finish.progress :=
  update_after_finished_warns (ThreadProgressCallback.init 5 0).force_finish 2 rfl

/-- Claim C6: on a not-yet-finished handle with `0 < total_steps`, after
`update(step)` with `0 ≤ step < total_steps`, `get_progress()` returns
`step / total_steps` and `is_finished()` returns false. -/
theorem update_below_total_spec (s : ThreadProgressCallback) (step : ℤ)
    (hf : s.finished = false) (ht : 0 < s.total_steps)
    (h0 : 0 ≤ step) (hlt : step < s.total_steps) :
    (s.update step).1.get_progress = (step : ℚ) / (s.total_steps : ℚ) ∧
    (s.update step).1.is_finished = false := by
  simp [ThreadProgressCallback.update, ThreadProgressCallback.get_progress,
    ThreadProgressCallback.is_finished, hf, not_le.mpr hlt, ht.ne']

/-- Witness for C6 at `total_steps = 10`, `step = 7`. -/
theorem update_below_total_spec_witness :
    ((ThreadProgressCallback.init 10 0).update 7).1.get_progress =
      ((7 : ℤ) : ℚ) / (((ThreadProgressCallback.init 10 0).total_steps : ℤ) : ℚ) ∧
    ((ThreadProgressCallback.init 10 0).update 7).1.is_finished = false :=
  update_below_total_spec (ThreadProgressCallback.init 10 0) 7 rfl
    (by norm_num [ThreadProgressCallback.init]) (by norm_num)
    (by norm_num [ThreadProgressCallback.init])

/-- Claim C7: `get_remaining_time()` returns `+infinity` exactly when the
stored progress is 0; otherwise, with `elapsed = now - start_time`, it
returns the finite value `elapsed * (1 / progress - 1)`. -/
theorem get_remaining_time_spec (s : ThreadProgressCallback) (now : ℚ) :
    (s.get_remaining_time now = RemainingTime.infinity ↔ s.progress = 0) ∧
    (s.progress ≠ 0 →
      s.get_remaining_time now =
        RemainingTime.finite ((now - s.start_time) * (1 / s.progress - 1))) := by
  unfold ThreadProgressCallback.get_remaining_time
  split_ifs with h
  · simp [h]
  · constructor
    · simp [h]
    · intro _
      field_simp
      ring

/-- Witness for C7 on a handle with progress `1/2`, queried 10 seconds
after construction: remaining time is 10 seconds. -/
theorem get_remaining_time_spec_witness :
    ((ThreadProgressCallback.init 2 0).update 1).1.get_remaining_time 10 =
      RemainingTime.finite 10 := by
  have h := (get_remaining_time_spec ((ThreadProgressCallback.init 2 0).update 1).1 10).2
    (by norm_num [ThreadProgressCallback.init, ThreadProgressCallback.update])
  rw [h]
  norm_num [ThreadProgressCallback.init, ThreadProgressCallback.update]

/-- Claim C8: `force_finish()` makes `is_finished()` true in every state. -/
theorem force_finish_finishes (s : ThreadProgressCallback) :
    s.force_finish.is_finished = true :=
  rfl

/-- Claim C1 counterexample: with `total_steps = 2` and `step = 3` on a
fresh handle, `update` stores `3/2`, so `get_progress()` exceeds 1: the
stored progress is not clamped. -/
theorem update_does_not_clamp :
    ((ThreadProgressCallback.init 2 0).update 3).1.get_progress = 3 / 2 ∧
    ¬ ((ThreadProgressCallback.init 2 0).update 3).1.get_progress ≤ 1 := by
  norm_num [ThreadProgressCallback.init, ThreadProgressCallback.update,
    ThreadProgressCallback.get_progress]

/-- Claim C1 (amended): on a not-yet-finished handle with
`0 < total_steps`, `update(step)` with `step ≥ total_steps` sets
`finished` and stores exactly `step / total_steps`, a value that is at
least 1, equal to 1 precisely when `step = total_steps` (no clamping). -/
theorem update_overshoot_exact (s : ThreadProgressCallback) (step : ℤ)
    (hf : s.finished = false) (ht : 0 < s.total_steps)
    (hs : s.total_steps ≤ step) :
    (s.update step).1.is_finished = true ∧
    (s.update step).1.get_progress = (step : ℚ) / (s.total_steps : ℚ) ∧
    1 ≤ (s.update step).1.get_progress ∧
    ((s.update step).1.get_progress = 1 ↔ step = s.total_steps) := by
  have htQ : (0 : ℚ) < (s.total_steps : ℚ) := by exact_mod_cast ht
  have h1 : (s.update step).1 =
      { s with finished := true,
               progress := (step : ℚ) / (s.total_steps : ℚ) } := by
    simp [ThreadProgressCallback.update, hf, hs, ht.ne']
  rw [h1]
  refine ⟨rfl, rfl, ?_, ?_⟩
  · show (1 : ℚ) ≤ (step : ℚ) / (s.total_steps : ℚ)
    rw [le_div_iff₀ htQ]
    simpa using (Int.cast_le.mpr hs : (s.total_steps : ℚ) ≤ (step : ℚ))
  · show (step : ℚ) / (s.total_steps : ℚ) = 1 ↔ step = s.total_steps
    rw [div_eq_one_iff_eq htQ.ne']
    exact Int.cast_inj

/-- Witness for the amended C1 at `total_steps = 2`, `step = 3`. -/
theorem update_overshoot_exact_witness :
    ((ThreadProgressCallback.init 2 0).update 3).1.is_finished = true ∧
    ((ThreadProgressCallback.init 2 0).update 3).1.get_progress =
      ((3 : ℤ) : ℚ) / (((ThreadProgressCallback.init 2 0).total_steps : ℤ) : ℚ) ∧
    1 ≤ ((ThreadProgressCallback.init 2 0).update 3).1.get_progress ∧
    (((ThreadProgressCallback.init 2 0).update 3).1.get_progress = 1 ↔
      (3 : ℤ) = (ThreadProgressCallback.init 2 0).total_steps) :=
  update_overshoot_exact (ThreadProgressCallback.init 2 0) 3 rfl
    (by norm_num [ThreadProgressCallback.init])
    (by norm_num [ThreadProgressCallback.init])

/-- Claim C2 counterexample: on a fresh handle with `total_steps = 10`,
`update(5)` then `update(3)` strictly decreases the stored progress, so
progress is not non-decreasing under arbitrary step arguments. -/
theorem progress_can_decrease :
    (((ThreadProgressCallback.init 10 0).update 5).1.update 3).1.progress <
      ((ThreadProgressCallback.init 10 0).update 5).1.progress := by
  norm_num [ThreadProgressCallback.init, ThreadProgressCallback.update]

/-- On an empty metric list, `TrainCallback.get_progress` returns 0 and
changes nothing. -/
theorem TrainCallback.get_progress_of_empty (s : TrainCallback)
    (metrics : List α) (h : metrics.length = 0) :
    s.get_progress metrics = (s, TrainProgressOutcome.returned 0) := by
  unfold TrainCallback.get_progress
  rw [if_pos h]

/-- On a non-empty metric list with nonzero `total_steps`,
`TrainCallback.get_progress` stores `len(metrics) / total_steps`. -/
theorem TrainCallback.get_progress_progress (s : TrainCallback)
    (metrics : List α) (hne : metrics.length ≠ 0) (ht : s.total_steps ≠ 0) :
    (s.get_progress metrics).1.progress =
      (metrics.length : ℚ) / (s.total_steps : ℚ) := by
  unfold TrainCallback.get_progress
  dsimp only
  rw [if_neg hne]
  split
  · rename_i heq
    exact absurd heq (s.toThreadProgressCallback.update_ne_zdiv _ ht)
  · split_ifs with h2
    · rw [ThreadProgressCallback.update_total_steps] at h2
      exact absurd h2 ht
    · rw [ThreadProgressCallback.update_total_steps]

/-- On a non-empty metric list with nonzero `total_steps`,
`TrainCallback.get_progress` returns `len(metrics) / total_steps`. -/
theorem TrainCallback.get_progress_snd (s : TrainCallback)
    (metrics : List α) (hne : metrics.length ≠ 0) (ht : s.total_steps ≠ 0) :
    (s.get_progress metrics).2 =
      TrainProgressOutcome.returned ((metrics.length : ℚ) / (s.total_steps : ℚ)) := by
  unfold TrainCallback.get_progress
  dsimp only
  rw [if_neg hne]
  split
  · rename_i heq
    exact absurd heq (s.toThreadProgressCallback.update_ne_zdiv _ ht)
  · split_ifs with h2
    · rw [ThreadProgressCallback.update_total_steps] at h2
      exact absurd h2 ht
    · rw [ThreadProgressCallback.update_total_steps]

/-- Claim C2 (amended): the stored progress is non-decreasing across
`force_finish`, the base `get_progress`, and any `update` (or training
`get_progress`) whose step argument (or metric count) is at least
`progress * total_steps` — in particular across update calls with
non-decreasing steps; an update with a smaller step can decrease it. -/
theorem progress_nondecreasing_of_large_step (s : ThreadProgressCallback)
    (step : ℤ) (t : TrainCallback) (metrics : List α)
    (ht : 0 < s.total_steps)
    (hstep : s.progress * (s.total_steps : ℚ) ≤ (step : ℚ))
    (ht2 : 0 < t.total_steps)
    (hm : t.progress * (t.total_steps : ℚ) ≤ (metrics.length : ℚ)) :
    s.progress ≤ (s.update step).1.progress ∧
    s.force_finish.progress = s.progress ∧
    s.get_progress = s.progress ∧
    t.progress ≤ (t.get_progress metrics).1.progress := by
  have htQ : (0 : ℚ) < (s.total_steps : ℚ) := by exact_mod_cast ht
  refine ⟨?_, rfl, rfl, ?_⟩
  · unfold ThreadProgressCallback.update
    split_ifs with h1 h2 h3 h4
    · exact le_refl _
    · exact le_refl _
    · show s.progress ≤ (step : ℚ) / (s.total_steps : ℚ)
      rw [le_div_iff₀ htQ]
      exact hstep
    · exact le_refl _
    · show s.progress ≤ (step : ℚ) / (s.total_steps : ℚ)
      rw [le_div_iff₀ htQ]
      exact hstep
  · have ht2Q : (0 : ℚ) < (t.total_steps : ℚ) := by exact_mod_cast ht2
    rcases Nat.eq_zero_or_pos metrics.length with h0 | h0
    · rw [t.get_progress_of_empty metrics h0]
    · rw [t.get_progress_progress metrics h0.ne' ht2.ne']
      rw [le_div_iff₀ ht2Q]
      exact hm

/-- Witness for the amended C2 on fresh handles (progress 0). -/
theorem progress_nondecreasing_of_large_step_witness :
    (ThreadProgressCallback.init 10 0).progress ≤
      ((ThreadProgressCallback.init 10 0).update 3).1.progress ∧
    (ThreadProgressCallback.init 10 0).force_finish.progress =
      (ThreadProgressCallback.init 10 0).progress ∧
    (ThreadProgressCallback.init 10 0).get_progress =
      (ThreadProgressCallback.init 10 0).progress ∧
    (TrainCallback.init 4 0).progress ≤
      ((TrainCallback.init 4 0).get_progress ([()] : List Unit)).1.progress :=
  progress_nondecreasing_of_large_step (ThreadProgressCallback.init 10 0) 3
    (TrainCallback.init 4 0) ([()] : List Unit)
    (by norm_num [ThreadProgressCallback.init])
    (by norm_num [ThreadProgressCallback.init])
    (by norm_num [TrainCallback.init, ThreadProgressCallback.init])
    (by norm_num [TrainCallback.init, ThreadProgressCallback.init])

/-- Claim C10: `TrainCallback.get_progress` returns 0 and changes nothing
on an empty metric list; on a non-empty list of length `n` (with nonzero
`total_steps`, since the code divides by it) it stores and returns
`n / total_steps`, the handle is finished afterwards exactly when it
already was or `n ≥ total_steps`, and the progress assignment happens
even when the handle was already finished. -/
theorem train_get_progress_spec (s : TrainCallback) (metrics : List α) :
    (metrics = [] → s.get_progress metrics = (s, TrainProgressOutcome.returned 0)) ∧
    (metrics ≠ [] → s.total_steps ≠ 0 →
      (s.get_progress metrics).1.progress =
        (metrics.length : ℚ) / (s.total_steps : ℚ) ∧
      (s.get_progress metrics).2 =
        TrainProgressOutcome.returned ((metrics.length : ℚ) / (s.total_steps : ℚ)) ∧
      ((s.get_progress metrics).1.finished = true ↔
        (s.finished = true ∨ s.total_steps ≤ (metrics.length : ℤ))) ∧
      (s.get_progress metrics).1.total_steps = s.total_steps) := by
  constructor
  · intro h
    exact s.get_progress_of_empty metrics (by simp [h])
  · intro hne ht
    have hlen : metrics.length ≠ 0 := by simpa using hne
    refine ⟨s.get_progress_progress metrics hlen ht,
      s.get_progress_snd metrics hlen ht, ?_,
      s.get_progress_total_steps metrics⟩
    rw [s.get_progress_finished metrics, if_neg hlen]
    unfold ThreadProgressCallback.update
    split_ifs <;> simp_all

/-- Witness for C10 on a force-finished handle with `total_steps = 4` and
one metric record: progress is overwritten to `1/4` while `finished`
stays true. -/
theorem train_get_progress_spec_witness :
    (((TrainCallback.init 4 0).exec (TrainOp.force_finish : TrainOp Unit)).get_progress
        ([()] : List Unit)).1.progress = 1 / 4 ∧
    (((TrainCallback.init 4 0).exec (TrainOp.force_finish : TrainOp Unit)).get_progress
        ([()] : List Unit)).1.finished = true := by
  have h := (train_get_progress_spec
      ((TrainCallback.init 4 0).exec (TrainOp.force_finish : TrainOp Unit))
      ([()] : List Unit)).2 (by simp)
    (by norm_num [TrainCallback.exec, TrainCallback.init,
      ThreadProgressCallback.init, ThreadProgressCallback.force_finish])
  refine ⟨?_, h.2.2.1.mpr (Or.inl rfl)⟩
  rw [h.1]
  norm_num [TrainCallback.exec, TrainCallback.init,
    ThreadProgressCallback.init, ThreadProgressCallback.force_finish]

/-- No operation of the base class resets `finished`. -/
theorem ThreadProgressCallback.base_exec_finished_mono (s : ThreadProgressCallback)
    (o : BaseOp) (h : s.finished = true) : (s.exec o).finished = true := by
  cases o with
  | update step => exact s.update_finished_mono step h
  | get_progress => exact h
  | is_finished => exact h
  | get_remaining_time now => exact h
  | force_finish => rfl
  | register_thread => exact h
  | start => exact h
  | join => exact h

/-- No operation of `TrainCallback` resets `finished`. -/
theorem TrainCallback.train_exec_finished_mono (s : TrainCallback) (o : TrainOp α)
    (h : s.finished = true) : (s.exec o).finished = true := by
  cases o with
  | update step => exact s.toThreadProgressCallback.update_finished_mono step h
  | get_progress metrics =>
      show (s.get_progress metrics).1.finished = true
      rw [s.get_progress_finished metrics]
      split_ifs
      · exact h
      · exact s.toThreadProgressCallback.update_finished_mono _ h
  | is_finished => exact h
  | get_remaining_time now => exact h
  | force_finish => rfl
  | register_thread => exact h
  | start => exact h
  | join => exact h
  | get_metrics => exact h
  | set_best_ckpt_file p => exact h
  | set_last_ckpt_file p => exact h
  | set_result_dir p => exact h
  | set_metric_file p => exact h

/-- No operation of `InferenceCallback` resets `finished`. -/
theorem InferenceCallback.infer_exec_finished_mono (s : InferenceCallback)
    (o : InferenceOp) (h : s.finished = true) : (s.exec o).finished = true := by
  cases o with
  | update step => exact s.toThreadProgressCallback.update_finished_mono step h
  | get_progress => exact h
  | is_finished => exact h
  | get_remaining_time now => exact h
  | force_finish => rfl
  | register_thread => exact h
  | start => exact h
  | join => exact h
  | set_inference_dir p => exact h
  | set_draw_dir p => exact h

/-- No operation of `ExportCallback` resets `finished`. -/
theorem ExportCallback.export_exec_finished_mono (s : ExportCallback)
    (o : ExportOp) (h : s.finished = true) : (s.exec o).finished = true := by
  cases o with
  | update step => exact s.toThreadProgressCallback.update_finished_mono step h
  | get_progress => exact h
  | is_finished => exact h
  | get_remaining_time now => exact h
  | force_finish => rfl
  | register_thread => exact h
  | start => exact h
  | join => exact h
  | set_export_file p => exact h

/-- No operation of the base class changes `total_steps`. -/
theorem ThreadProgressCallback.base_exec_total_steps (s : ThreadProgressCallback)
    (o : BaseOp) : (s.exec o).total_steps = s.total_steps := by
  cases o with
  | update step => exact s.update_total_steps step
  | get_progress => rfl
  | is_finished => rfl
  | get_remaining_time now => rfl
  | force_finish => rfl
  | register_thread => rfl
  | start => rfl
  | join => rfl

/-- No operation of `TrainCallback` changes `total_steps`. -/
theorem TrainCallback.train_exec_total_steps (s : TrainCallback) (o : TrainOp α) :
    (s.exec o).total_steps = s.total_steps := by
  cases o with
  | update step => exact s.toThreadProgressCallback.update_total_steps step
  | get_progress metrics => exact s.get_progress_total_steps metrics
  | is_finished => rfl
  | get_remaining_time now => rfl
  | force_finish => rfl
  | register_thread => rfl
  | start => rfl
  | join => rfl
  | get_metrics => rfl
  | set_best_ckpt_file p => rfl
  | set_last_ckpt_file p => rfl
  | set_result_dir p => rfl
  | set_metric_file p => rfl

/-- No operation of `InferenceCallback` changes `total_steps`. -/
theorem InferenceCallback.infer_exec_total_steps (s : InferenceCallback)
    (o : InferenceOp) : (s.exec o).total_steps = s.total_steps := by
  cases o with
  | update step => exact s.toThreadProgressCallback.update_total_steps step
  | get_progress => rfl
  | is_finished => rfl
  | get_remaining_time now => rfl
  | force_finish => rfl
  | register_thread => rfl
  | start => rfl
  | join => rfl
  | set_inference_dir p => rfl
  | set_draw_dir p => rfl

/-- No operation of `ExportCallback` changes `total_steps`. -/
theorem ExportCallback.export_exec_total_steps (s : ExportCallback) (o : ExportOp) :
    (s.exec o).total_steps = s.total_steps := by
  cases o with
  | update step => exact s.toThreadProgressCallback.update_total_steps step
  | get_progress => rfl
  | is_finished => rfl
  | get_remaining_time now => rfl
  | force_finish => rfl
  | register_thread => rfl
  | start => rfl
  | join => rfl
  | set_export_file p => rfl

/-- Claim C5: the `finished` flag is monotonic false-to-true: from any
state in which `is_finished()` is true, every sequence of operations
(`update`, `get_progress`, `get_remaining_time`, `force_finish`,
`register_thread`, `start`, `join`, and the subclass path setters) of
the base class and of each subclass leaves `is_finished()` true. -/
theorem finished_monotone (b : ThreadProgressCallback) (obs : List BaseOp)
    (t : TrainCallback) (ots : List (TrainOp α))
    (i : InferenceCallback) (ois : List InferenceOp)
    (e : ExportCallback) (oes : List ExportOp)
    (hb : b.is_finished = true) (htr : t.is_finished = true)
    (hi : i.is_finished = true) (he : e.is_finished = true) :
    (obs.foldl ThreadProgressCallback.exec b).is_finished = true ∧
    (ots.foldl TrainCallback.exec t).is_finished = true ∧
    (ois.foldl InferenceCallback.exec i).is_finished = true ∧
    (oes.foldl ExportCallback.exec e).is_finished = true :=
  ⟨foldl_preserves _ (fun s o hs => s.base_exec_finished_mono o hs) obs b hb,
   foldl_preserves _ (fun s o hs => s.train_exec_finished_mono o hs) ots t htr,
   foldl_preserves _ (fun s o hs => s.infer_exec_finished_mono o hs) ois i hi,
   foldl_preserves _ (fun s o hs => s.export_exec_finished_mono o hs) oes e he⟩

/-- Witness for C5 on force-finished handles and concrete operation
sequences for all four classes. -/
theorem finished_monotone_witness :
    (([BaseOp.update 1, BaseOp.join].foldl ThreadProgressCallback.exec
        (ThreadProgressCallback.init 3 0).force_finish).is_finished = true) ∧
    (([TrainOp.set_best_ckpt_file "a", TrainOp.get_progress [()], TrainOp.update 0].foldl
        TrainCallback.exec
        ((TrainCallback.init 3 0).exec (TrainOp.force_finish : TrainOp Unit))).is_finished = true) ∧
    (([InferenceOp.set_draw_dir "d", InferenceOp.update 5].foldl InferenceCallback.exec
        ((InferenceCallback.init 3 0).exec InferenceOp.force_finish)).is_finished = true) ∧
    (([ExportOp.set_export_file "f", ExportOp.update 2].foldl ExportCallback.exec
        ((ExportCallback.init 3 0).exec ExportOp.force_finish)).is_finished = true) :=
  finished_monotone (ThreadProgressCallback.init 3 0).force_finish
    [BaseOp.update 1, BaseOp.join]
    ((TrainCallback.init 3 0).exec (TrainOp.force_finish : TrainOp Unit))
    [TrainOp.set_best_ckpt_file "a", TrainOp.get_progress [()], TrainOp.update 0]
    ((InferenceCallback.init 3 0).exec InferenceOp.force_finish)
    [InferenceOp.set_draw_dir "d", InferenceOp.update 5]
    ((ExportCallback.init 3 0).exec ExportOp.force_finish)
    [ExportOp.set_export_file "f", ExportOp.update 2]
    rfl rfl rfl rfl

/-- Claim C9: `total_steps` is fixed at construction: after any sequence
of operations on a freshly constructed handle of the base class or of
any subclass, `total_steps` still equals the construction argument. -/
theorem total_steps_constant_after_init (total : ℤ) (t0 : ℚ)
    (obs : List BaseOp) (ots : List (TrainOp α))
    (ois : List InferenceOp) (oes : List ExportOp) :
    (obs.foldl ThreadProgressCallback.exec
      (ThreadProgressCallback.init total t0)).total_steps = total ∧
    (ots.foldl TrainCallback.exec (TrainCallback.init total t0)).total_steps = total ∧
    (ois.foldl InferenceCallback.exec
      (InferenceCallback.init total t0)).total_steps = total ∧
    (oes.foldl ExportCallback.exec
      (ExportCallback.init total t0)).total_steps = total :=
  ⟨@foldl_preserves _ _ (fun s => s.total_steps = total) ThreadProgressCallback.exec
     (fun s o hs => (s.base_exec_total_steps o).trans hs) obs _ rfl,
   @foldl_preserves _ _ (fun s => s.total_steps = total) TrainCallback.exec
     (fun s o hs => (s.train_exec_total_steps o).trans hs) ots _ rfl,
   @foldl_preserves _ _ (fun s => s.total_steps = total) InferenceCallback.exec
     (fun s o hs => (s.infer_exec_total_steps o).trans hs) ois _ rfl,
   @foldl_preserves _ _ (fun s => s.total_steps = total) ExportCallback.exec
     (fun s o hs => (s.export_exec_total_steps o).trans hs) oes _ rfl⟩
